import Mathlib

/-!
Verification of the movie-catalog REST API (FastAPI + SQLAlchemy repository).

Shallow embedding of the three source files:
  * src/main.py             - application mount prefix
  * src/schemas/movies.py   - pydantic validation schemas
  * src/routes/movies.py    - the route handlers (list, detail, create, update)

Conventions of the embedding:
  * the relational store is an explicit `DB` state (lists of rows plus
    per-table id generators, mirroring autoincrement primary keys);
  * `db.scalar(select(...).where(...))` becomes `List.find?`;
  * an HTTP error response is the `ApiError` sum; an unhandled exception
    escaping the handler (e.g. an IntegrityError raised at commit with no
    surrounding try/except) is `ApiError.storeError`;
  * a failed request performs no commit, so the model returns only the error
    (the state is rolled back, i.e. unchanged);
  * calendar dates are integers (a day number); `today` is a parameter;
  * python floats (score, budget, revenue) are modelled as rationals, since
    the code only compares them against integer bounds.
-/

/-- Modelled from the spec: `MovieStatusEnum` lives in `database/models.py`,
which is not part of the provided sources; the spec lists the statuses as
"enum: e.g. Released/Post-Production/etc.". Only its identity matters to the
claims (values are carried through unchanged). -/
inductive MovieStatusEnum where
  | released
  | postProduction
  | inProduction
deriving Repr, DecidableEq

/-- A row of the `countries` table (`CountryModel`): id, natural-key `code`,
optional display name. -/
structure CountryRow where
  id : Nat
  code : String
  name : Option String
deriving Repr, DecidableEq

/-- A row of one of the `genres` / `actors` / `languages` tables
(`GenreModel` / `ActorModel` / `LanguageModel` all have the same shape):
id plus natural-key `name`. -/
structure RefRow where
  id : Nat
  name : String
deriving Repr, DecidableEq

/-- A row of the `movies` table (`MovieModel`) together with its association
rows: `countryId` is the foreign key; the three id lists are the join-table
associations, in association order. -/
structure MovieRow where
  id : Nat
  name : String
  date : Int
  score : ℚ
  overview : Option String
  status : MovieStatusEnum
  budget : ℚ
  revenue : ℚ
  countryId : Nat
  genreIds : List Nat
  actorIds : List Nat
  languageIds : List Nat
deriving Repr, DecidableEq

/-- The relational store: one list of rows per table, plus the autoincrement
counter of each table's primary key. -/
structure DB where
  movies : List MovieRow
  countries : List CountryRow
  genres : List RefRow
  actors : List RefRow
  languages : List RefRow
  nextMovieId : Nat
  nextCountryId : Nat
  nextGenreId : Nat
  nextActorId : Nat
  nextLanguageId : Nat
deriving Repr, DecidableEq

/-- `MovieCreateSchema`: the full creation payload. -/
structure MovieCreatePayload where
  name : String
  date : Int
  score : ℚ
  overview : Option String
  status : MovieStatusEnum
  budget : ℚ
  revenue : ℚ
  country : String
  genres : List String
  actors : List String
  languages : List String
deriving Repr, DecidableEq

/-- The mutation dictionary `data = movie_data.model_dump(exclude_unset=True)`
that the PATCH handler body works on: a field is `some v` when its key is in
the dictionary and `none` when the key is absent (for the nullable `overview`
column the dictionary value is itself optional).  The dictionary can only
ever hold the seven scalar fields `MovieUpdateSchema` declares (no id, no
relations).  NOTE on reachability: this repository uses Pydantic v2
(`ConfigDict` / `field_validator` / `model_dump`), under which the schema's
seven `Optional`-without-default fields are all REQUIRED (merely nullable),
so every body that passes validation sets all seven keys - the dictionaries
the running program produces always have every key present (the validation
boundary is modelled by `patch_movie` below).  The handler itself is
embedded for arbitrary dictionaries, exactly as its code is written. -/
structure MovieUpdatePayload where
  name : Option String := none
  date : Option Int := none
  score : Option ℚ := none
  overview : Option (Option String) := none
  status : Option MovieStatusEnum := none
  budget : Option ℚ := none
  revenue : Option ℚ := none
deriving Repr, DecidableEq

/-- Outcomes a request can produce other than success.  The first three are
`HTTPException`s raised by the handlers; `unprocessableEntity` is the 422 the
FastAPI/Pydantic validation layer answers by itself when a request body fails
schema validation - the handler never runs in that case; `storeError` is an
exception (database error, TypeError, ...) that escapes the handler because
no code catches it (surfaced by the framework as an unclassified 500, not as
any `HTTPException`). -/
inductive ApiError where
  | badRequest (detail : String)
  | notFound (detail : String)
  | conflict (detail : String)
  | unprocessableEntity (detail : String)
  | storeError (detail : String)
deriving Repr, DecidableEq

/-- `MovieListResponseSchema`. -/
structure MovieListResponse where
  movies : List MovieRow
  prev_page : Option String
  next_page : Option String
  total_pages : Nat
  total_items : Nat
deriving Repr, DecidableEq

/-- From `main.py`: the router is mounted under this prefix
(`app.include_router(movie_router, prefix="/api/v1/theater")`). -/
def app_mount_point : String := "/api/v1/theater"

/-- `_page_link` from routes/movies.py: a hard-coded path template, not
derived from the mount point. -/
def _page_link (page : Nat) (per_page : Nat) : String :=
  "/theater/movies/?page=" ++ toString page ++ "&per_page=" ++ toString per_page

/-- Lookup of a movie by primary key
(`select(MovieModel).where(MovieModel.id == movie_id)`). -/
def findMovie (db : DB) (movie_id : Nat) : Option MovieRow :=
  db.movies.find? (fun m => m.id == movie_id)

/-- `_get_movie_or_404`. -/
def _get_movie_or_404 (db : DB) (movie_id : Nat) : Except ApiError MovieRow :=
  match findMovie db movie_id with
  | some movie => .ok movie
  | none => .error (.notFound "Movie with the given ID was not found.")

/-- Ordering used by the listing query: `order_by(MovieModel.id.desc())`. -/
def byIdDesc (a b : MovieRow) : Prop := b.id ≤ a.id

instance : DecidableRel byIdDesc := fun a b => Nat.decLe b.id a.id

instance : IsTotal MovieRow byIdDesc := ⟨fun a b => Nat.le_total b.id a.id⟩

instance : IsTrans MovieRow byIdDesc :=
  ⟨fun _ _ _ hab hbc => Nat.le_trans hbc hab⟩

/-- The rows of the `movies` table in the order the listing query returns
them (id descending). -/
def moviesByIdDesc (db : DB) : List MovieRow :=
  db.movies.insertionSort byIdDesc

/-- `GET /movies/` (`get_movies`): count, emptiness check, total pages,
page-range check, ordered offset/limit slice, empty-slice check, links. -/
def get_movies (db : DB) (page : Nat) (per_page : Nat) :
    Except ApiError MovieListResponse :=
  let total_items := db.movies.length
  if total_items == 0 then
    .error (.notFound "No movies found.")
  else
    let total_pages := (total_items + per_page - 1) / per_page
    if page > total_pages then
      .error (.notFound "No movies found.")
    else
      let movies := ((moviesByIdDesc db).drop ((page - 1) * per_page)).take per_page
      if movies.isEmpty then
        .error (.notFound "No movies found.")
      else
        .ok
          { movies := movies
            prev_page := if page > 1 then some (_page_link (page - 1) per_page) else none
            next_page := if page < total_pages then some (_page_link (page + 1) per_page) else none
            total_pages := total_pages
            total_items := total_items }

/-- `GET /movies/{movie_id}/` (`get_movie_by_id`). -/
def get_movie_by_id (db : DB) (movie_id : Nat) : Except ApiError MovieRow :=
  _get_movie_or_404 db movie_id

/-- One step of the reference resolver for a name-keyed table
(the body of each `for` loop in `create_movie`): look the row up by name;
if absent, construct a row carrying only the natural key, add it and flush
(assigning the next generated id). Returns the resolved row, the updated
table and the updated id counter. -/
def resolveRef (rows : List RefRow) (nextId : Nat) (name : String) :
    RefRow × List RefRow × Nat :=
  match rows.find? (fun r => r.name == name) with
  | some r => (r, rows, nextId)
  | none =>
    let r : RefRow := { id := nextId, name := name }
    (r, rows ++ [r], nextId + 1)

/-- The whole `for` loop: resolve each name in order, collecting the
association ids in input order. -/
def resolveAll (rows : List RefRow) (nextId : Nat) (names : List String) :
    List RefRow × Nat × List Nat :=
  match names with
  | [] => (rows, nextId, [])
  | n :: rest =>
    let step := resolveRef rows nextId n
    let restRes := resolveAll step.2.1 step.2.2 rest
    (restRes.1, restRes.2.1, step.1.id :: restRes.2.2)

/-- The country resolver inside `create_movie`: lookup by `code`; if absent,
create `CountryModel(code=...)` (display name left null) and flush. -/
def resolveCountry (rows : List CountryRow) (nextId : Nat) (code : String) :
    CountryRow × List CountryRow × Nat :=
  match rows.find? (fun c => c.code == code) with
  | some c => (c, rows, nextId)
  | none =>
    let c : CountryRow := { id := nextId, code := code, name := none }
    (c, rows ++ [c], nextId + 1)

/-- The tail of the creation workflow: after the commit the movie is re-read
with all relations eagerly loaded
(`movie = await _get_movie_or_404(db, movie.id)`) and returned together with
the committed state. -/
def rereadAfterCommit (db' : DB) (movieId : Nat) : Except ApiError (DB × MovieRow) :=
  match _get_movie_or_404 db' movieId with
  | .ok m => .ok (db', m)
  | .error e => .error e

/-- The Conflict detail string of the duplicate check in `create_movie`. -/
def duplicateMovieDetail (name : String) (d : Int) : String :=
  "A movie with the name '" ++ name ++ "' and release date '" ++ toString d ++
    "' already exists."

/-- `POST /movies/` (`create_movie`).

`commitUniqueViolation` models the store reporting a uniqueness violation on
(name, date) at commit time (a concurrent writer inserted the pair between
the pre-insert check and the commit).  The handler wraps the commit in no
try/except, so in that case the IntegrityError escapes as an unclassified
`storeError` - this is exactly what the code does (the comment at the
duplicate check even says the pre-check exists so as not to catch the sqlite
IntegrityError). -/
def create_movie (today : Int) (commitUniqueViolation : Bool)
    (db : DB) (p : MovieCreatePayload) : Except ApiError (DB × MovieRow) :=
  if p.date > today + 365 then
    .error (.badRequest "Invalid input data.")
  else
    match db.movies.find? (fun m => m.name == p.name && m.date == p.date) with
    | some _ => .error (.conflict (duplicateMovieDetail p.name p.date))
    | none =>
      let rc := resolveCountry db.countries db.nextCountryId p.country
      let movieId := db.nextMovieId
      let rg := resolveAll db.genres db.nextGenreId p.genres
      let ra := resolveAll db.actors db.nextActorId p.actors
      let rl := resolveAll db.languages db.nextLanguageId p.languages
      let movie : MovieRow :=
        { id := movieId
          name := p.name
          date := p.date
          score := p.score
          overview := p.overview
          status := p.status
          budget := p.budget
          revenue := p.revenue
          countryId := rc.1.id
          genreIds := rg.2.2
          actorIds := ra.2.2
          languageIds := rl.2.2 }
      if commitUniqueViolation then
        .error (.storeError "UNIQUE constraint failed: movies.name, movies.date")
      else
        let db' : DB :=
          { movies := db.movies ++ [movie]
            countries := rc.2.1
            genres := rg.1
            actors := ra.1
            languages := rl.1
            nextMovieId := movieId + 1
            nextCountryId := rc.2.2
            nextGenreId := rg.2.1
            nextActorId := ra.2.1
            nextLanguageId := rl.2.1 }
        rereadAfterCommit db' movie.id

/-- `PATCH /movies/{movie_id}/` (`update_movie`): fetch by id, validate the
fields present in `model_dump(exclude_unset=True)`, apply each present field,
commit, return the acknowledgment string.  Note: the handler has no
empty-payload check. -/
def update_movie (today : Int) (db : DB) (movie_id : Nat)
    (p : MovieUpdatePayload) : Except ApiError (DB × String) :=
  match findMovie db movie_id with
  | none => .error (.notFound "Movie with the given ID was not found.")
  | some movie =>
    if p.score.any (fun s => !(decide (0 ≤ s) && decide (s ≤ 100))) then
      .error (.badRequest "Invalid input data.")
    else if p.budget.any (fun b => decide (b < 0)) then
      .error (.badRequest "Invalid input data.")
    else if p.revenue.any (fun r => decide (r < 0)) then
      .error (.badRequest "Invalid input data.")
    else if p.date.any (fun d => decide (d > today + 365)) then
      .error (.badRequest "Invalid input data.")
    else
      let movie' : MovieRow :=
        { movie with
            name := p.name.getD movie.name
            date := p.date.getD movie.date
            score := p.score.getD movie.score
            overview := p.overview.getD movie.overview
            status := p.status.getD movie.status
            budget := p.budget.getD movie.budget
            revenue := p.revenue.getD movie.revenue }
      let db' : DB :=
        { db with movies := db.movies.map (fun m => if m.id == movie_id then movie' else m) }
      .ok (db', "Movie updated successfully.")

/-- A raw PATCH request body, before schema validation: each of the seven
fields `MovieUpdateSchema` recognizes is either absent (`none`), present
with an explicit JSON null (`some none`), or present with a value
(`some (some v)`).  Keys the schema does not declare are irrelevant
(ignored by validation). -/
structure RawUpdateBody where
  name : Option (Option String) := none
  date : Option (Option Int) := none
  score : Option (Option ℚ) := none
  overview : Option (Option String) := none
  status : Option (Option MovieStatusEnum) := none
  budget : Option (Option ℚ) := none
  revenue : Option (Option ℚ) := none
deriving Repr, DecidableEq

/-- The PATCH endpoint as FastAPI serves it: before `update_movie` runs, the
body is validated against `MovieUpdateSchema` under Pydantic v2, where a
field annotated `Optional[X]` with no default is REQUIRED (nullable).  So:

  * a body missing any of the seven fields - in particular the empty body -
    is answered 422 Unprocessable Entity ("Field required") by the framework
    and the handler never runs;
  * a body providing all seven fields validates, every field counts as set,
    and `model_dump(exclude_unset=True)` therefore contains all seven keys;
    with non-null values (null is fine for the nullable `overview` column)
    this is the dictionary handed to the handler;
  * a body providing all seven fields where one of name/date/score/status/
    budget/revenue is an explicit null also reaches the handler, where it
    ends in an uncaught exception: for score/budget/revenue/date the
    handler's own range check compares the null (`0 <= None` - a TypeError),
    and for name/status the null is written to a column the spec's data
    model declares non-nullable (only `overview` is optional there,
    `database/models.py` itself not being among the provided sources), so
    the commit raises.  Both escape uncaught and are modelled as the
    unclassified `storeError`; no claim depends on this branch. -/
def patch_movie (today : Int) (db : DB) (movie_id : Nat) (b : RawUpdateBody) :
    Except ApiError (DB × String) :=
  match b.name, b.date, b.score, b.overview, b.status, b.budget, b.revenue with
  | some nv, some dv, some sv, some ov, some stv, some bv, some rv =>
    match nv, dv, sv, stv, bv, rv with
    | some n, some d, some s, some st, some bu, some re =>
      update_movie today db movie_id
        { name := some n, date := some d, score := some s, overview := some ov,
          status := some st, budget := some bu, revenue := some re }
    | _, _, _, _, _, _ =>
      .error (.storeError
        "uncaught TypeError or NOT NULL violation on explicit null field")
  | _, _, _, _, _, _, _ =>
    .error (.unprocessableEntity "Field required")

/-- The `MovieBase` field constraints of `MovieCreateSchema` (pydantic):
name ≤ 255 chars, 0 ≤ score ≤ 100, budget ≥ 0, revenue ≥ 0, country code
≤ 3 chars, and the `check_future_date` validator rejecting dates more than
365 days after today. -/
def movieCreateSchemaValid (today : Int) (p : MovieCreatePayload) : Bool :=
  decide (p.name.length ≤ 255) &&
  !(decide (p.date > today + 365)) &&
  decide (0 ≤ p.score) && decide (p.score ≤ 100) &&
  decide (0 ≤ p.budget) && decide (0 ≤ p.revenue) &&
  decide (p.country.length ≤ 3)

/-- The name stored under a generated reference-row id (how a response
schema resolves an association id back to its display name). -/
def refNameOfId (rows : List RefRow) (i : Nat) : Option String :=
  (rows.find? (fun r => r.id == i)).map RefRow.name

/-- The country code stored under a generated country id. -/
def countryCodeOfId (rows : List CountryRow) (i : Nat) : Option String :=
  (rows.find? (fun c => c.id == i)).map CountryRow.code

/-- Well-formedness of a name-keyed reference table with respect to its id
counter: every id is below the counter, generated ids are unique, and the
natural key (name) is unique - the store-level uniqueness the data model
postulates. -/
def refTableOk (rows : List RefRow) (nextId : Nat) : Prop :=
  (∀ r ∈ rows, r.id < nextId) ∧
  (rows.map RefRow.id).Nodup ∧
  (rows.map RefRow.name).Nodup

/-- Well-formedness of the whole store: id counters dominate stored ids,
primary keys are unique, and each natural key (country code, genre / actor /
language name) is unique. -/
def dbOk (db : DB) : Prop :=
  (∀ m ∈ db.movies, m.id < db.nextMovieId) ∧
  (db.movies.map MovieRow.id).Nodup ∧
  (∀ c ∈ db.countries, c.id < db.nextCountryId) ∧
  (db.countries.map CountryRow.id).Nodup ∧
  (db.countries.map CountryRow.code).Nodup ∧
  refTableOk db.genres db.nextGenreId ∧
  refTableOk db.actors db.nextActorId ∧
  refTableOk db.languages db.nextLanguageId

instance (rows : List RefRow) (nextId : Nat) : Decidable (refTableOk rows nextId) := by
  unfold refTableOk; infer_instance

instance (db : DB) : Decidable (dbOk db) := by
  unfold dbOk; infer_instance

/-! ### Generic lookup lemmas -/

theorem find?_append_of_none {α : Type} {p : α → Bool} {l1 l2 : List α}
    (h : l1.find? p = none) : (l1 ++ l2).find? p = l2.find? p := by
  rw [List.find?_append, h, Option.none_or]

theorem find?_append_of_some {α : Type} {p : α → Bool} {l1 l2 : List α} {a : α}
    (h : l1.find? p = some a) : (l1 ++ l2).find? p = some a := by
  rw [List.find?_append, h]; rfl

/-- When the projection `key` is duplicate-free on `rows`, looking a member
up by its key finds exactly that member. -/
theorem find?_of_key_nodup {α β : Type} [BEq β] [LawfulBEq β] (key : α → β)
    {rows : List α} (hnd : (rows.map key).Nodup) {r : α} (hr : r ∈ rows) :
    rows.find? (fun x => key x == key r) = some r := by
  induction rows with
  | nil => cases hr
  | cons a l ih =>
    rw [List.map_cons, List.nodup_cons] at hnd
    rcases List.mem_cons.mp hr with h | h
    · subst h
      simp [List.find?_cons_of_pos]
    · have hne : key a ≠ key r := fun he =>
        hnd.1 (he ▸ List.mem_map_of_mem key h)
      rw [List.find?_cons_of_neg _ (by simpa using hne)]
      exact ih hnd.2 h

/-- Two members of a list sharing a key are equal when keys are
duplicate-free. -/
theorem eq_of_key_nodup {α β : Type} (key : α → β) {rows : List α}
    (hnd : (rows.map key).Nodup) {r1 r2 : α} (h1 : r1 ∈ rows) (h2 : r2 ∈ rows)
    (hk : key r1 = key r2) : r1 = r2 :=
  List.inj_on_of_nodup_map hnd h1 h2 hk

/-! ### Reference-resolver lemmas -/

theorem resolveRef_found {rows : List RefRow} {name : String} {r : RefRow}
    (nextId : Nat) (h : rows.find? (fun x => x.name == name) = some r) :
    resolveRef rows nextId name = (r, rows, nextId) := by
  unfold resolveRef; rw [h]

theorem resolveRef_absent {rows : List RefRow} {name : String}
    (nextId : Nat) (h : rows.find? (fun x => x.name == name) = none) :
    resolveRef rows nextId name =
      ({ id := nextId, name := name },
       rows ++ [{ id := nextId, name := name }], nextId + 1) := by
  unfold resolveRef; rw [h]

theorem resolveAll_cons (rows : List RefRow) (nextId : Nat) (n : String)
    (rest : List String) :
    resolveAll rows nextId (n :: rest) =
      ((resolveAll (resolveRef rows nextId n).2.1 (resolveRef rows nextId n).2.2 rest).1,
       (resolveAll (resolveRef rows nextId n).2.1 (resolveRef rows nextId n).2.2 rest).2.1,
       (resolveRef rows nextId n).1.id ::
         (resolveAll (resolveRef rows nextId n).2.1 (resolveRef rows nextId n).2.2 rest).2.2) :=
  rfl

/-- Full specification of one resolver loop: the invariant is preserved, the
table only grows, and it grows only by rows for names that were absent; the
collected association ids resolve back to exactly the input names in input
order; any pre-existing row whose name occurs in the input is the row the
association points at; afterwards every input name is present in the table. -/
theorem resolveAll_spec (names : List String) :
    ∀ (rows : List RefRow) (nextId : Nat), refTableOk rows nextId →
      refTableOk (resolveAll rows nextId names).1 (resolveAll rows nextId names).2.1 ∧
      (∃ ext, (resolveAll rows nextId names).1 = rows ++ ext ∧
        ∀ r ∈ ext, r.name ∈ names ∧ ∀ r0 ∈ rows, r0.name ≠ r.name) ∧
      ((resolveAll rows nextId names).2.2.map
          (fun i => refNameOfId (resolveAll rows nextId names).1 i) = names.map some) ∧
      (∀ r ∈ rows, r.name ∈ names → r.id ∈ (resolveAll rows nextId names).2.2) ∧
      (∀ n ∈ names, ∃ r ∈ (resolveAll rows nextId names).1, r.name = n) := by
  induction names with
  | nil =>
    intro rows nextId hok
    exact ⟨hok, ⟨[], by simp [resolveAll], by simp⟩, rfl, by simp, by simp⟩
  | cons n rest ih =>
    intro rows nextId hok
    cases hfind : rows.find? (fun x => x.name == n) with
    | some r =>
      have hstep := resolveRef_found nextId hfind
      have hrmem : r ∈ rows := List.mem_of_find?_eq_some hfind
      have hrname : r.name = n := by simpa using List.find?_some hfind
      obtain ⟨ihok, ⟨ext, hext, hextP⟩, ihmap, ihmem, ihall⟩ := ih rows nextId hok
      rw [resolveAll_cons]
      simp only [hstep]
      refine ⟨ihok, ⟨ext, hext, ?_⟩, ?_, ?_, ?_⟩
      · intro x hx
        exact ⟨List.mem_cons_of_mem n (hextP x hx).1, (hextP x hx).2⟩
      · rw [List.map_cons, List.map_cons, ihmap]
        have hfr : (resolveAll rows nextId rest).1.find? (fun x => x.id == r.id) = some r := by
          rw [hext]
          exact find?_append_of_some (find?_of_key_nodup RefRow.id hok.2.1 hrmem)
        simp [refNameOfId, hfr, hrname]
      · intro x hx hxn
        rcases List.mem_cons.mp hxn with h1 | h1
        · have : x = r := eq_of_key_nodup RefRow.name hok.2.2 hx hrmem (by rw [h1, hrname])
          rw [this]
          exact List.mem_cons_self _ _
        · exact List.mem_cons_of_mem _ (ihmem x hx h1)
      · intro m hm
        rcases List.mem_cons.mp hm with h1 | h1
        · exact ⟨r, by rw [hext]; exact List.mem_append_left _ hrmem, by rw [hrname, h1]⟩
        · exact ihall m h1
    | none =>
      have hstep := resolveRef_absent nextId hfind
      have habsent : ∀ x ∈ rows, x.name ≠ n := by
        intro x hx
        have := List.find?_eq_none.mp hfind x hx
        simpa using this
      have hok1 : refTableOk (rows ++ [{ id := nextId, name := n }]) (nextId + 1) := by
        obtain ⟨hb, hid, hnm⟩ := hok
        refine ⟨?_, ?_, ?_⟩
        · intro x hx
          rcases List.mem_append.mp hx with h1 | h1
          · exact Nat.lt_succ_of_lt (hb x h1)
          · rcases List.mem_singleton.mp h1 with rfl
            exact Nat.lt_succ_self _
        · rw [List.map_append, List.nodup_append]
          refine ⟨hid, by simp, ?_⟩
          intro i hi
          simp only [List.map_cons, List.map_nil, List.mem_singleton]
          intro hcon
          rcases List.mem_map.mp hi with ⟨x, hx, hxi⟩
          subst hcon
          exact absurd (hb x hx) (by omega)
        · rw [List.map_append, List.nodup_append]
          refine ⟨hnm, by simp, ?_⟩
          intro s hs
          simp only [List.map_cons, List.map_nil, List.mem_singleton]
          intro hcon
          rcases List.mem_map.mp hs with ⟨x, hx, hxs⟩
          subst hcon
          exact habsent x hx hxs
      obtain ⟨ihok, ⟨ext, hext, hextP⟩, ihmap, ihmem, ihall⟩ :=
        ih (rows ++ [{ id := nextId, name := n }]) (nextId + 1) hok1
      rw [resolveAll_cons]
      simp only [hstep]
      have hr0mem : ({ id := nextId, name := n } : RefRow) ∈
          rows ++ [{ id := nextId, name := n }] := by
        exact List.mem_append_right _ (List.mem_singleton.mpr rfl)
      refine ⟨ihok, ?_, ?_, ?_, ?_⟩
      · refine ⟨{ id := nextId, name := n } :: ext,
          by rw [hext, List.append_assoc]; rfl, ?_⟩
        intro x hx
        rcases List.mem_cons.mp hx with h1 | h1
        · subst h1
          exact ⟨List.mem_cons_self _ _, habsent⟩
        · refine ⟨List.mem_cons_of_mem n (hextP x h1).1, ?_⟩
          intro x0 hx0
          exact (hextP x h1).2 x0 (List.mem_append_left _ hx0)
      · rw [List.map_cons, List.map_cons, ihmap]
        have hfr : (resolveAll (rows ++ [{ id := nextId, name := n }]) (nextId + 1) rest).1.find?
            (fun x => x.id == ({ id := nextId, name := n } : RefRow).id) =
              some { id := nextId, name := n } := by
          rw [hext]
          exact find?_append_of_some (find?_of_key_nodup RefRow.id hok1.2.1 hr0mem)
        simp [refNameOfId, hfr]
      · intro x hx hxn
        rcases List.mem_cons.mp hxn with h1 | h1
        · exact absurd h1 (habsent x hx)
        · exact List.mem_cons_of_mem _ (ihmem x (List.mem_append_left _ hx) h1)
      · intro m hm
        rcases List.mem_cons.mp hm with h1 | h1
        · refine ⟨{ id := nextId, name := n }, ?_, h1 ▸ rfl⟩
          rw [hext]
          exact List.mem_append_left _ hr0mem
        · exact ihall m h1

theorem resolveCountry_found {rows : List CountryRow} {code : String} {c : CountryRow}
    (nextId : Nat) (h : rows.find? (fun x => x.code == code) = some c) :
    resolveCountry rows nextId code = (c, rows, nextId) := by
  unfold resolveCountry; rw [h]

theorem resolveCountry_absent {rows : List CountryRow} {code : String}
    (nextId : Nat) (h : rows.find? (fun x => x.code == code) = none) :
    resolveCountry rows nextId code =
      ({ id := nextId, code := code, name := none },
       rows ++ [{ id := nextId, code := code, name := none }], nextId + 1) := by
  unfold resolveCountry; rw [h]

/-- Full specification of the country resolver: invariants preserved, the
table grows only by a fresh code-only row, the resolved row carries the
requested code and its id resolves back to that code, and a pre-existing row
with the code is returned unchanged. -/
theorem resolveCountry_spec (rows : List CountryRow) (nextId : Nat) (code : String)
    (hb : ∀ c ∈ rows, c.id < nextId) (hid : (rows.map CountryRow.id).Nodup)
    (hcode : (rows.map CountryRow.code).Nodup) :
    (resolveCountry rows nextId code).1.code = code ∧
    (resolveCountry rows nextId code).1 ∈ (resolveCountry rows nextId code).2.1 ∧
    (∀ c ∈ (resolveCountry rows nextId code).2.1, c.id < (resolveCountry rows nextId code).2.2) ∧
    ((resolveCountry rows nextId code).2.1.map CountryRow.id).Nodup ∧
    ((resolveCountry rows nextId code).2.1.map CountryRow.code).Nodup ∧
    (∃ ext, (resolveCountry rows nextId code).2.1 = rows ++ ext ∧
      ∀ c ∈ ext, c.code = code ∧ c.name = none ∧ ∀ c0 ∈ rows, c0.code ≠ code) ∧
    countryCodeOfId (resolveCountry rows nextId code).2.1
      (resolveCountry rows nextId code).1.id = some code ∧
    (∀ c ∈ rows, c.code = code → (resolveCountry rows nextId code).1 = c) := by
  cases hfind : rows.find? (fun x => x.code == code) with
  | some c =>
    have hstep := resolveCountry_found nextId hfind
    have hcmem : c ∈ rows := List.mem_of_find?_eq_some hfind
    have hccode : c.code = code := by simpa using List.find?_some hfind
    rw [hstep]
    refine ⟨hccode, hcmem, hb, hid, hcode, ⟨[], by simp, by simp⟩, ?_, ?_⟩
    · have hfr : rows.find? (fun x => x.id == c.id) = some c :=
        find?_of_key_nodup CountryRow.id hid hcmem
      simp [countryCodeOfId, hfr, hccode]
    · intro c0 hc0 hc0code
      exact eq_of_key_nodup CountryRow.code hcode hcmem hc0 (by rw [hccode, hc0code])
  | none =>
    have hstep := resolveCountry_absent nextId hfind
    have habsent : ∀ x ∈ rows, x.code ≠ code := by
      intro x hx
      have := List.find?_eq_none.mp hfind x hx
      simpa using this
    rw [hstep]
    have hmem : ({ id := nextId, code := code, name := none } : CountryRow) ∈
        rows ++ [{ id := nextId, code := code, name := none }] :=
      List.mem_append_right _ (List.mem_singleton.mpr rfl)
    refine ⟨rfl, hmem, ?_, ?_, ?_, ?_, ?_, ?_⟩
    · intro x hx
      rcases List.mem_append.mp hx with h1 | h1
      · exact Nat.lt_succ_of_lt (hb x h1)
      · rcases List.mem_singleton.mp h1 with rfl
        exact Nat.lt_succ_self _
    · rw [List.map_append, List.nodup_append]
      refine ⟨hid, by simp, ?_⟩
      intro i hi
      simp only [List.map_cons, List.map_nil, List.mem_singleton]
      intro hcon
      rcases List.mem_map.mp hi with ⟨x, hx, hxi⟩
      subst hcon
      exact absurd (hb x hx) (by omega)
    · rw [List.map_append, List.nodup_append]
      refine ⟨hcode, by simp, ?_⟩
      intro s hs
      simp only [List.map_cons, List.map_nil, List.mem_singleton]
      intro hcon
      rcases List.mem_map.mp hs with ⟨x, hx, hxs⟩
      subst hcon
      exact habsent x hx hxs
    · refine ⟨[{ id := nextId, code := code, name := none }], rfl, ?_⟩
      intro x hx
      rcases List.mem_singleton.mp hx with rfl
      exact ⟨rfl, rfl, habsent⟩
    · have hnone : rows.find? (fun x => x.id == nextId) = none := by
        refine List.find?_eq_none.mpr ?_
        intro x hx
        simp [Nat.ne_of_lt (hb x hx)]
      simp [countryCodeOfId, find?_append_of_none hnone, List.find?]
    · intro c0 hc0 hc0code
      exact absurd hc0code (habsent c0 hc0)

/-! ### The successful creation path -/

/-- The Movie row `create_movie` constructs on the success path (payload
scalars copied verbatim, country/genre/actor/language associations taken
from the resolvers, id from the movie table's generator). -/
def newMovieRow (db : DB) (p : MovieCreatePayload) : MovieRow :=
  { id := db.nextMovieId
    name := p.name
    date := p.date
    score := p.score
    overview := p.overview
    status := p.status
    budget := p.budget
    revenue := p.revenue
    countryId := (resolveCountry db.countries db.nextCountryId p.country).1.id
    genreIds := (resolveAll db.genres db.nextGenreId p.genres).2.2
    actorIds := (resolveAll db.actors db.nextActorId p.actors).2.2
    languageIds := (resolveAll db.languages db.nextLanguageId p.languages).2.2 }

/-- The store state `create_movie` commits on the success path. -/
def dbAfterCreate (db : DB) (p : MovieCreatePayload) : DB :=
  { movies := db.movies ++ [newMovieRow db p]
    countries := (resolveCountry db.countries db.nextCountryId p.country).2.1
    genres := (resolveAll db.genres db.nextGenreId p.genres).1
    actors := (resolveAll db.actors db.nextActorId p.actors).1
    languages := (resolveAll db.languages db.nextLanguageId p.languages).1
    nextMovieId := db.nextMovieId + 1
    nextCountryId := (resolveCountry db.countries db.nextCountryId p.country).2.2
    nextGenreId := (resolveAll db.genres db.nextGenreId p.genres).2.1
    nextActorId := (resolveAll db.actors db.nextActorId p.actors).2.1
    nextLanguageId := (resolveAll db.languages db.nextLanguageId p.languages).2.1 }

theorem findMovie_append_new (movies : List MovieRow) (movie : MovieRow)
    (i : Nat) (hi : movie.id = i) (hlt : ∀ mv ∈ movies, mv.id < i) :
    (movies ++ [movie]).find? (fun x => x.id == i) = some movie := by
  have h1 : movies.find? (fun x => x.id == i) = none := by
    refine List.find?_eq_none.mpr ?_
    intro x hx
    simp [Nat.ne_of_lt (hlt x hx)]
  rw [find?_append_of_none h1]
  simp [List.find?, hi]

theorem rereadAfterCommit_ok {db' : DB} {i : Nat} {m : MovieRow}
    (h : findMovie db' i = some m) : rereadAfterCommit db' i = .ok (db', m) := by
  unfold rereadAfterCommit _get_movie_or_404
  rw [h]

/-- On the success path (valid date, no duplicate, no commit-time store
error) `create_movie` commits `dbAfterCreate` and answers with
`newMovieRow`. -/
theorem create_movie_ok_eq (today : Int) (db : DB) (p : MovieCreatePayload)
    (hwf : ∀ mv ∈ db.movies, mv.id < db.nextMovieId)
    (hdate : ¬ p.date > today + 365)
    (hdup : db.movies.find? (fun mv => mv.name == p.name && mv.date == p.date) = none) :
    create_movie today false db p = .ok (dbAfterCreate db p, newMovieRow db p) := by
  have hfind : findMovie (dbAfterCreate db p) db.nextMovieId = some (newMovieRow db p) := by
    unfold findMovie dbAfterCreate
    exact findMovie_append_new db.movies (newMovieRow db p) db.nextMovieId rfl hwf
  unfold create_movie
  rw [if_neg hdate, hdup]
  exact rereadAfterCommit_ok hfind

/-- The post-commit re-read can only fail with NotFound, never BadRequest. -/
theorem rereadAfterCommit_not_badRequest (db' : DB) (i : Nat) (s : String) :
    rereadAfterCommit db' i ≠ .error (.badRequest s) := by
  unfold rereadAfterCommit _get_movie_or_404
  cases hf : findMovie db' i <;> simp

/-- Replacing the row found by a key-lookup makes the lookup return the
replacement (provided the replacement keeps the key). -/
theorem find?_map_replace {movies : List MovieRow} {movie : MovieRow} {i : Nat}
    (hf : movies.find? (fun m => m.id == i) = some movie)
    (movie' : MovieRow) (hid : movie'.id = i) :
    (movies.map (fun m => if m.id == i then movie' else m)).find?
      (fun m => m.id == i) = some movie' := by
  induction movies with
  | nil => simp [List.find?] at hf
  | cons a l ih =>
    by_cases ha : a.id = i
    · simp [List.find?, ha, hid]
    · rw [List.find?_cons_of_neg _ (by simpa using ha)] at hf
      rw [List.map_cons, if_neg (by simpa using ha),
        List.find?_cons_of_neg _ (by simpa using ha)]
      exact ih hf

/-- Characterization of the rounded-up quotient `(total + pp - 1) / pp` used
for `total_pages`: it is the least number of pages of size `pp` covering
`total` items - i.e. the ceiling of `total / pp`. -/
theorem ceil_div_spec (total pp : Nat) (hpp : 1 ≤ pp) (htot : total ≠ 0) :
    total ≤ pp * ((total + pp - 1) / pp) ∧
    pp * ((total + pp - 1) / pp - 1) < total := by
  have hdm := Nat.div_add_mod (total + pp - 1) pp
  have hml : (total + pp - 1) % pp < pp := Nat.mod_lt _ (by omega)
  rcases hq : (total + pp - 1) / pp with _ | k <;> rw [hq] at hdm
  · rw [Nat.mul_zero] at hdm
    omega
  · rw [Nat.mul_succ] at hdm
    have hk1 : (k + 1 - 1) = k := rfl
    rw [Nat.mul_succ, hk1]
    generalize pp * k = x at hdm ⊢
    omega

/-- Exhaustive case analysis of the listing handler. -/
theorem get_movies_cases (db : DB) (page per_page : Nat) :
    (db.movies.length = 0 ∧
      get_movies db page per_page = .error (.notFound "No movies found.")) ∨
    (db.movies.length ≠ 0 ∧
      page > (db.movies.length + per_page - 1) / per_page ∧
      get_movies db page per_page = .error (.notFound "No movies found.")) ∨
    (db.movies.length ≠ 0 ∧
      ¬ page > (db.movies.length + per_page - 1) / per_page ∧
      ((moviesByIdDesc db).drop ((page - 1) * per_page)).take per_page = [] ∧
      get_movies db page per_page = .error (.notFound "No movies found.")) ∨
    (db.movies.length ≠ 0 ∧
      ¬ page > (db.movies.length + per_page - 1) / per_page ∧
      ((moviesByIdDesc db).drop ((page - 1) * per_page)).take per_page ≠ [] ∧
      get_movies db page per_page = .ok
        { movies := ((moviesByIdDesc db).drop ((page - 1) * per_page)).take per_page
          prev_page := if page > 1 then some (_page_link (page - 1) per_page) else none
          next_page := if page < (db.movies.length + per_page - 1) / per_page then
              some (_page_link (page + 1) per_page) else none
          total_pages := (db.movies.length + per_page - 1) / per_page
          total_items := db.movies.length }) := by
  by_cases h0 : db.movies.length = 0
  · left
    refine ⟨h0, ?_⟩
    unfold get_movies
    rw [if_pos (beq_iff_eq.mpr h0)]
  · right
    by_cases hp : page > (db.movies.length + per_page - 1) / per_page
    · left
      refine ⟨h0, hp, ?_⟩
      unfold get_movies
      rw [if_neg (fun hc => h0 (beq_iff_eq.mp hc)), if_pos hp]
    · right
      by_cases hs : ((moviesByIdDesc db).drop ((page - 1) * per_page)).take per_page = []
      · left
        refine ⟨h0, hp, hs, ?_⟩
        unfold get_movies
        rw [if_neg (fun hc => h0 (beq_iff_eq.mp hc)), if_neg hp,
          if_pos (List.isEmpty_iff.mpr hs)]
      · right
        refine ⟨h0, hp, hs, ?_⟩
        unfold get_movies
        rw [if_neg (fun hc => h0 (beq_iff_eq.mp hc)), if_neg hp,
          if_neg (fun hc => hs (List.isEmpty_iff.mp hc))]

/-! ### Concrete data used by the witnesses and counterexamples -/

def movieA : MovieRow :=
  { id := 1, name := "Inception", date := 100, score := 87,
    overview := some "A mind-bending heist.", status := .released,
    budget := 160, revenue := 830, countryId := 1,
    genreIds := [1], actorIds := [1], languageIds := [1] }

def sampleDB : DB :=
  { movies := [movieA]
    countries := [{ id := 1, code := "US", name := none }]
    genres := [{ id := 1, name := "Drama" }]
    actors := [{ id := 1, name := "Leo" }]
    languages := [{ id := 1, name := "en" }]
    nextMovieId := 2, nextCountryId := 2, nextGenreId := 2,
    nextActorId := 2, nextLanguageId := 2 }

/-- A fresh payload reusing the existing genre "Drama" and adding a new one,
against `sampleDB`. -/
def payloadB : MovieCreatePayload :=
  { name := "Arrival", date := 200, score := 90, overview := none,
    status := .released, budget := 47, revenue := 203, country := "US",
    genres := ["Drama", "SciFi"], actors := ["Amy"], languages := ["en"] }

/-- A payload with the same (name, date) pair as `movieA`. -/
def payloadDupA : MovieCreatePayload :=
  { name := "Inception", date := 100, score := 10, overview := none,
    status := .inProduction, budget := 1, revenue := 1, country := "FR",
    genres := [], actors := [], languages := [] }

instance {ε α : Type} [DecidableEq ε] [DecidableEq α] : DecidableEq (Except ε α) :=
  fun x y =>
    match x, y with
    | .ok a, .ok b =>
      if h : a = b then isTrue (by rw [h]) else isFalse (fun hc => h (by cases hc; rfl))
    | .error a, .error b =>
      if h : a = b then isTrue (by rw [h]) else isFalse (fun hc => h (by cases hc; rfl))
    | .ok _, .error _ => isFalse (fun hc => Except.noConfusion hc)
    | .error _, .ok _ => isFalse (fun hc => Except.noConfusion hc)

/-! ### Claims -/

/-- C2: for every creation request whose payload names a (name, date) pair
already held by a stored Movie (and whose date passes the up-front date
check, as any schema-valid payload does), `create_movie` fails with Conflict
carrying exactly the message
"A movie with the name '<name>' and release date '<date>' already exists.",
and no new Movie row is persisted (the operation returns no committed
state). -/
theorem create_duplicate_name_date_conflicts
    (today : Int) (flag : Bool) (db : DB) (p : MovieCreatePayload) (m : MovieRow)
    (hm : m ∈ db.movies) (hname : m.name = p.name) (hdate : m.date = p.date)
    (hvalid : ¬ p.date > today + 365) :
    create_movie today flag db p =
      .error (.conflict ("A movie with the name '" ++ p.name ++
        "' and release date '" ++ toString p.date ++ "' already exists.")) ∧
    ∀ (db' : DB) (m' : MovieRow), create_movie today flag db p ≠ .ok (db', m') := by
  obtain ⟨x, hx⟩ :
      ∃ x, db.movies.find? (fun mv => mv.name == p.name && mv.date == p.date) = some x := by
    cases hf : db.movies.find? (fun mv => mv.name == p.name && mv.date == p.date) with
    | some x => exact ⟨x, rfl⟩
    | none =>
      have := List.find?_eq_none.mp hf m hm
      simp [hname, hdate] at this
  have hmain : create_movie today flag db p =
      .error (.conflict ("A movie with the name '" ++ p.name ++
        "' and release date '" ++ toString p.date ++ "' already exists.")) := by
    unfold create_movie
    rw [if_neg hvalid, hx]
    rfl
  exact ⟨hmain, fun db' m' hc => by rw [hmain] at hc; exact Except.noConfusion hc⟩

theorem create_duplicate_name_date_conflicts_witness :
    movieA ∈ sampleDB.movies ∧ movieA.name = payloadDupA.name ∧
    movieA.date = payloadDupA.date ∧ ¬ payloadDupA.date > (500 : Int) + 365 ∧
    (create_movie 500 false sampleDB payloadDupA =
      .error (.conflict ("A movie with the name '" ++ payloadDupA.name ++
        "' and release date '" ++ toString payloadDupA.date ++ "' already exists.")) ∧
     ∀ (db' : DB) (m' : MovieRow),
       create_movie 500 false sampleDB payloadDupA ≠ .ok (db', m')) :=
  ⟨by decide, by decide, by decide, by decide,
   create_duplicate_name_date_conflicts 500 false sampleDB payloadDupA movieA
     (by decide) (by decide) (by decide) (by decide)⟩

/-- C3: the claim says a uniqueness violation reported by the store at
commit time is translated into the same Conflict error as the pre-insert
duplicate check.  The code does not do this: `create_movie` wraps
`db.commit()` in no try/except, so the IntegrityError escapes as an
unclassified store error, which is not a Conflict.  This theorem evaluates
the model at the failing input (a payload that passes the pre-insert check
while the store reports the race at commit). -/
theorem commit_race_not_translated_to_conflict :
    create_movie 500 true sampleDB payloadB =
      .error (.storeError "UNIQUE constraint failed: movies.name, movies.date") ∧
    ∀ s : String,
      (ApiError.storeError "UNIQUE constraint failed: movies.name, movies.date") ≠
        ApiError.conflict s :=
  ⟨by decide, fun _ h => ApiError.noConfusion h⟩

/-- C5: in every successful listing response, prev_page is present (with
page-1) exactly when page > 1, next_page is present (with page+1) exactly
when page < total_pages, and every link is the fixed template
"/theater" ++ "/movies/?page=<n>&per_page=<m>" - a hard-coded constant
prefix, not derived from the mount point the application serves the API
under. -/
theorem listing_page_links (db : DB) (page per_page : Nat)
    (resp : MovieListResponse) (h : get_movies db page per_page = .ok resp) :
    (resp.prev_page =
      if page > 1 then some (_page_link (page - 1) per_page) else none) ∧
    (resp.next_page =
      if page < resp.total_pages then some (_page_link (page + 1) per_page) else none) ∧
    (∀ n m : Nat, _page_link n m =
      "/theater" ++ "/movies/?page=" ++ toString n ++ "&per_page=" ++ toString m) := by
  rcases get_movies_cases db page per_page with
    ⟨_, he⟩ | ⟨_, _, he⟩ | ⟨_, _, _, he⟩ | ⟨_, _, _, he⟩
  · rw [he] at h; exact Except.noConfusion h
  · rw [he] at h; exact Except.noConfusion h
  · rw [he] at h; exact Except.noConfusion h
  · rw [he] at h
    have hr := Except.ok.inj h
    refine ⟨?_, ?_, ?_⟩
    · rw [← hr]
    · rw [← hr]
    · intro n m
      simp [_page_link]

def listRespA : MovieListResponse :=
  { movies := [movieA], prev_page := none, next_page := none,
    total_pages := 1, total_items := 1 }

theorem listing_page_links_witness :
    get_movies sampleDB 1 10 = .ok listRespA ∧
    ((listRespA.prev_page =
       if 1 > 1 then some (_page_link (1 - 1) 10) else none) ∧
     (listRespA.next_page =
       if 1 < listRespA.total_pages then some (_page_link (1 + 1) 10) else none) ∧
     (∀ n m : Nat, _page_link n m =
       "/theater" ++ "/movies/?page=" ++ toString n ++ "&per_page=" ++ toString m)) :=
  ⟨by decide, listing_page_links sampleDB 1 10 listRespA (by decide)⟩

/-- C9: once a payload has passed the `MovieCreateSchema` validation
(whose `check_future_date` validator rejects any date more than 365 days
after today), the explicit BadRequest branch at the top of `create_movie`
is unreachable: the payload's date is at most today + 365, and the workflow
can never answer BadRequest ("Invalid input data."). -/
theorem schema_makes_date_branch_unreachable (today : Int) (p : MovieCreatePayload)
    (hvalid : movieCreateSchemaValid today p = true) :
    p.date ≤ today + 365 ∧
    ∀ (flag : Bool) (db : DB),
      create_movie today flag db p ≠ .error (.badRequest "Invalid input data.") := by
  have hdate : ¬ p.date > today + 365 := by
    unfold movieCreateSchemaValid at hvalid
    simp only [Bool.and_eq_true, Bool.not_eq_true', decide_eq_true_eq,
      decide_eq_false_iff_not] at hvalid
    exact hvalid.1.1.1.1.1.2
  refine ⟨Int.not_lt.mp hdate, ?_⟩
  intro flag db h
  unfold create_movie at h
  rw [if_neg hdate] at h
  cases hf : db.movies.find? (fun mv => mv.name == p.name && mv.date == p.date) with
  | some x =>
    rw [hf] at h
    simp at h
  | none =>
    rw [hf] at h
    cases flag with
    | true => simp at h
    | false =>
      simp only [Bool.false_eq_true, if_false] at h
      exact rereadAfterCommit_not_badRequest _ _ _ h

theorem schema_makes_date_branch_unreachable_witness :
    movieCreateSchemaValid 500 payloadB = true ∧
    (payloadB.date ≤ (500 : Int) + 365 ∧
     ∀ (flag : Bool) (db : DB),
       create_movie 500 flag db payloadB ≠ .error (.badRequest "Invalid input data.")) :=
  ⟨by decide, schema_makes_date_branch_unreachable 500 payloadB (by decide)⟩

/-- Inversion of a successful update: the movie existed, the acknowledgment
is the fixed string, and the committed state replaces the row by the row
patched on exactly the present payload fields. -/
theorem update_movie_ok_inv {today : Int} {db : DB} {movie_id : Nat}
    {p : MovieUpdatePayload} {db' : DB} {ack : String}
    (h : update_movie today db movie_id p = .ok (db', ack)) :
    ∃ movie, findMovie db movie_id = some movie ∧
      ack = "Movie updated successfully." ∧
      db' = { db with movies := db.movies.map (fun m =>
        if m.id == movie_id then
          { movie with
              name := p.name.getD movie.name
              date := p.date.getD movie.date
              score := p.score.getD movie.score
              overview := p.overview.getD movie.overview
              status := p.status.getD movie.status
              budget := p.budget.getD movie.budget
              revenue := p.revenue.getD movie.revenue }
        else m) } := by
  unfold update_movie at h
  split at h
  · exact Except.noConfusion h
  rename_i movie hf
  split at h
  · exact Except.noConfusion h
  split at h
  · exact Except.noConfusion h
  split at h
  · exact Except.noConfusion h
  split at h
  · exact Except.noConfusion h
  have hpair := Prod.mk.inj (Except.ok.inj h)
  exact ⟨movie, hf, hpair.2.symm, hpair.1.symm⟩

/-- C6 counterexample: the claim says an update payload in which no
recognized field is present fails with the workflow's
BadRequest ("Invalid input data").  It does not: this repository uses
Pydantic v2, under which the seven `Optional`-without-default fields of
`MovieUpdateSchema` are all required, so the empty PATCH body is rejected by
schema validation with 422 Unprocessable Entity before `update_movie` ever
runs - the failure is the framework's validation error, not the handler's
BadRequest, and nothing is committed. -/
theorem empty_update_body_rejected_at_validation :
    patch_movie 500 sampleDB 1 {} = .error (.unprocessableEntity "Field required") ∧
    (∀ s : String,
      (ApiError.unprocessableEntity "Field required") ≠ ApiError.badRequest s) ∧
    (∀ (db' : DB) (ack : String), patch_movie 500 sampleDB 1 {} ≠ .ok (db', ack)) :=
  ⟨rfl, fun _ h => ApiError.noConfusion h, fun _ _ hc => Except.noConfusion hc⟩

/-- C6 (amended): for every update request on an existing movie, the handler
considers only the fields present in the dumped payload (an absent field
keeps the stored value and is never treated as an explicit null); a payload
in which no recognized field is present never reaches the workflow: it is
rejected by Pydantic v2 schema validation with 422 Unprocessable Entity
("Field required") - not with the workflow's BadRequest ("Invalid input
data") - and the stored movie is left unchanged.  Consequently every body
that does reach the workflow provides all seven recognized fields. -/
theorem update_present_fields_only
    (today : Int) (db : DB) (movie_id : Nat) :
    (∀ b : RawUpdateBody, b = {} →
      patch_movie today db movie_id b = .error (.unprocessableEntity "Field required") ∧
      ∀ (db' : DB) (ack : String), patch_movie today db movie_id b ≠ .ok (db', ack)) ∧
    (∀ (b : RawUpdateBody) (db' : DB) (ack : String),
      patch_movie today db movie_id b = .ok (db', ack) →
      ∃ p : MovieUpdatePayload, p.name.isSome ∧ p.date.isSome ∧ p.score.isSome ∧
        p.overview.isSome ∧ p.status.isSome ∧ p.budget.isSome ∧ p.revenue.isSome ∧
        update_movie today db movie_id p = .ok (db', ack)) ∧
    (∀ (p : MovieUpdatePayload) (db' : DB) (ack : String),
      update_movie today db movie_id p = .ok (db', ack) →
      ∃ movie, findMovie db movie_id = some movie ∧
        findMovie db' movie_id = some
          { movie with
              name := p.name.getD movie.name
              date := p.date.getD movie.date
              score := p.score.getD movie.score
              overview := p.overview.getD movie.overview
              status := p.status.getD movie.status
              budget := p.budget.getD movie.budget
              revenue := p.revenue.getD movie.revenue } ∧
        ∀ m ∈ db.movies, m.id ≠ movie_id → m ∈ db'.movies) := by
  refine ⟨?_, ?_, ?_⟩
  · intro b hb
    subst hb
    exact ⟨rfl, fun _ _ hc => Except.noConfusion hc⟩
  · intro b db' ack h
    obtain ⟨nv, dv, sv, ov, stv, bv, rv⟩ := b
    rcases nv with _ | nv
    · exact Except.noConfusion h
    rcases dv with _ | dv
    · exact Except.noConfusion h
    rcases sv with _ | sv
    · exact Except.noConfusion h
    rcases ov with _ | ov
    · exact Except.noConfusion h
    rcases stv with _ | stv
    · exact Except.noConfusion h
    rcases bv with _ | bv
    · exact Except.noConfusion h
    rcases rv with _ | rv
    · exact Except.noConfusion h
    rcases nv with _ | n
    · exact Except.noConfusion h
    rcases dv with _ | d
    · exact Except.noConfusion h
    rcases sv with _ | s
    · exact Except.noConfusion h
    rcases stv with _ | st
    · exact Except.noConfusion h
    rcases bv with _ | bu
    · exact Except.noConfusion h
    rcases rv with _ | re
    · exact Except.noConfusion h
    exact ⟨{ name := some n, date := some d, score := some s, overview := some ov,
             status := some st, budget := some bu, revenue := some re },
           rfl, rfl, rfl, rfl, rfl, rfl, rfl, h⟩
  · intro p db' ack h
    obtain ⟨movie, hf, hack, hdb⟩ := update_movie_ok_inv h
    have hmid : movie.id = movie_id := by
      have := List.find?_some hf
      simpa using this
    refine ⟨movie, hf, ?_, ?_⟩
    · rw [hdb]
      unfold findMovie
      exact find?_map_replace hf _ hmid
    · intro m hm hne
      rw [hdb]
      exact List.mem_map.mpr ⟨m, hm, by simp [hne]⟩

theorem update_present_fields_only_witness :
    ((∀ b : RawUpdateBody, b = {} →
       patch_movie 500 sampleDB 1 b = .error (.unprocessableEntity "Field required") ∧
       ∀ (db' : DB) (ack : String), patch_movie 500 sampleDB 1 b ≠ .ok (db', ack)) ∧
     (∀ (b : RawUpdateBody) (db' : DB) (ack : String),
       patch_movie 500 sampleDB 1 b = .ok (db', ack) →
       ∃ p : MovieUpdatePayload, p.name.isSome ∧ p.date.isSome ∧ p.score.isSome ∧
         p.overview.isSome ∧ p.status.isSome ∧ p.budget.isSome ∧ p.revenue.isSome ∧
         update_movie 500 sampleDB 1 p = .ok (db', ack)) ∧
     (∀ (p : MovieUpdatePayload) (db' : DB) (ack : String),
       update_movie 500 sampleDB 1 p = .ok (db', ack) →
       ∃ movie, findMovie sampleDB 1 = some movie ∧
         findMovie db' 1 = some
           { movie with
               name := p.name.getD movie.name
               date := p.date.getD movie.date
               score := p.score.getD movie.score
               overview := p.overview.getD movie.overview
               status := p.status.getD movie.status
               budget := p.budget.getD movie.budget
               revenue := p.revenue.getD movie.revenue } ∧
         ∀ m ∈ sampleDB.movies, m.id ≠ 1 → m ∈ db'.movies)) :=
  update_present_fields_only 500 sampleDB 1

/-- C10: a successful update can change neither the movie's id nor any of
its relations: the updated row keeps id, country, genre, actor and language
associations, every other movie row is untouched, and the reference tables
themselves are untouched - the update payload schema only admits the seven
scalar fields. -/
theorem update_preserves_id_and_relations
    (today : Int) (db : DB) (movie_id : Nat) (p : MovieUpdatePayload)
    (db' : DB) (ack : String)
    (h : update_movie today db movie_id p = .ok (db', ack)) :
    ∃ movie movie', findMovie db movie_id = some movie ∧
      findMovie db' movie_id = some movie' ∧
      movie'.id = movie.id ∧
      movie'.countryId = movie.countryId ∧
      movie'.genreIds = movie.genreIds ∧
      movie'.actorIds = movie.actorIds ∧
      movie'.languageIds = movie.languageIds ∧
      db'.countries = db.countries ∧ db'.genres = db.genres ∧
      db'.actors = db.actors ∧ db'.languages = db.languages := by
  obtain ⟨movie, hf, hack, hdb⟩ := update_movie_ok_inv h
  have hmid : movie.id = movie_id := by
    have := List.find?_some hf
    simpa using this
  refine ⟨movie,
    { movie with
        name := p.name.getD movie.name
        date := p.date.getD movie.date
        score := p.score.getD movie.score
        overview := p.overview.getD movie.overview
        status := p.status.getD movie.status
        budget := p.budget.getD movie.budget
        revenue := p.revenue.getD movie.revenue },
    hf, ?_, rfl, rfl, rfl, rfl, rfl, ?_, ?_, ?_, ?_⟩
  · rw [hdb]
    unfold findMovie
    exact find?_map_replace hf _ hmid
  · rw [hdb]
  · rw [hdb]
  · rw [hdb]
  · rw [hdb]

def sampleDB95 : DB :=
  { sampleDB with movies := [{ movieA with score := 95 }] }

theorem update_preserves_id_and_relations_witness :
    update_movie 500 sampleDB 1 { score := some 95 } =
      .ok (sampleDB95, "Movie updated successfully.") ∧
    (∃ movie movie', findMovie sampleDB 1 = some movie ∧
      findMovie sampleDB95 1 = some movie' ∧
      movie'.id = movie.id ∧
      movie'.countryId = movie.countryId ∧
      movie'.genreIds = movie.genreIds ∧
      movie'.actorIds = movie.actorIds ∧
      movie'.languageIds = movie.languageIds ∧
      sampleDB95.countries = sampleDB.countries ∧
      sampleDB95.genres = sampleDB.genres ∧
      sampleDB95.actors = sampleDB.actors ∧
      sampleDB95.languages = sampleDB.languages) :=
  ⟨by decide,
   update_preserves_id_and_relations 500 sampleDB 1 { score := some 95 }
     sampleDB95 "Movie updated successfully." (by decide)⟩

/-- Inversion of a successful creation: under well-formed movie ids, the
committed state and the returned movie are exactly the constructed ones. -/
theorem create_movie_ok_inv {today : Int} {db : DB} {p : MovieCreatePayload}
    {db' : DB} {m : MovieRow}
    (hwf : ∀ mv ∈ db.movies, mv.id < db.nextMovieId)
    (h : create_movie today false db p = .ok (db', m)) :
    db' = dbAfterCreate db p ∧ m = newMovieRow db p := by
  have hdate : ¬ p.date > today + 365 := by
    intro hd
    unfold create_movie at h
    rw [if_pos hd] at h
    exact Except.noConfusion h
  have hdup : db.movies.find? (fun mv => mv.name == p.name && mv.date == p.date) = none := by
    cases hf : db.movies.find? (fun mv => mv.name == p.name && mv.date == p.date) with
    | none => rfl
    | some x =>
      unfold create_movie at h
      rw [if_neg hdate, hf] at h
      exact Except.noConfusion h
  rw [create_movie_ok_eq today db p hwf hdate hdup] at h
  have hpair := Prod.mk.inj (Except.ok.inj h)
  exact ⟨hpair.1.symm, hpair.2.symm⟩

/-- C1: resolving a reference entity (Country by code; Genre, Actor,
Language by name) during creation reuses the existing row when one with
that natural key exists and creates exactly one new row - carrying only the
natural key - when none exists: after a successful creation the natural
keys of all four reference tables are still duplicate-free (so repeated
resolutions of one value within the request never produced duplicate rows),
each table grew only by rows whose key was previously absent, every
association of the new movie for a pre-existing key points at the
pre-existing row, and every requested key is present afterwards. -/
theorem reference_resolution_get_or_create
    (today : Int) (db : DB) (p : MovieCreatePayload) (db' : DB) (m : MovieRow)
    (hwf : dbOk db) (h : create_movie today false db p = .ok (db', m)) :
    (db'.countries.map CountryRow.code).Nodup ∧
    (db'.genres.map RefRow.name).Nodup ∧
    (db'.actors.map RefRow.name).Nodup ∧
    (db'.languages.map RefRow.name).Nodup ∧
    (∃ extC, db'.countries = db.countries ++ extC ∧
      ∀ c ∈ extC, c.code = p.country ∧ c.name = none ∧
        ∀ c0 ∈ db.countries, c0.code ≠ p.country) ∧
    (∃ ext, db'.genres = db.genres ++ ext ∧
      ∀ r ∈ ext, r.name ∈ p.genres ∧ ∀ r0 ∈ db.genres, r0.name ≠ r.name) ∧
    (∃ ext, db'.actors = db.actors ++ ext ∧
      ∀ r ∈ ext, r.name ∈ p.actors ∧ ∀ r0 ∈ db.actors, r0.name ≠ r.name) ∧
    (∃ ext, db'.languages = db.languages ++ ext ∧
      ∀ r ∈ ext, r.name ∈ p.languages ∧ ∀ r0 ∈ db.languages, r0.name ≠ r.name) ∧
    (∀ c ∈ db.countries, c.code = p.country → m.countryId = c.id) ∧
    (∀ r ∈ db.genres, r.name ∈ p.genres → r.id ∈ m.genreIds) ∧
    (∀ r ∈ db.actors, r.name ∈ p.actors → r.id ∈ m.actorIds) ∧
    (∀ r ∈ db.languages, r.name ∈ p.languages → r.id ∈ m.languageIds) ∧
    (∀ n ∈ p.genres, ∃ r ∈ db'.genres, r.name = n) ∧
    (∀ n ∈ p.actors, ∃ r ∈ db'.actors, r.name = n) ∧
    (∀ n ∈ p.languages, ∃ r ∈ db'.languages, r.name = n) ∧
    (∃ c ∈ db'.countries, c.code = p.country) := by
  obtain ⟨hmb, hmid, hcb, hcid, hccode, hgok, haok, hlok⟩ := hwf
  obtain ⟨hdb, hm⟩ := create_movie_ok_inv hmb h
  subst hdb
  subst hm
  obtain ⟨hcCode, hcMem, hcBound, hcId, hcCodes, hcExt, hcOf, hcReuse⟩ :=
    resolveCountry_spec db.countries db.nextCountryId p.country hcb hcid hccode
  obtain ⟨hgok2, hgext, hgmap, hgmem, hgall⟩ :=
    resolveAll_spec p.genres db.genres db.nextGenreId hgok
  obtain ⟨haok2, haext, hamap, hamem, haall⟩ :=
    resolveAll_spec p.actors db.actors db.nextActorId haok
  obtain ⟨hlok2, hlext, hlmap, hlmem, hlall⟩ :=
    resolveAll_spec p.languages db.languages db.nextLanguageId hlok
  exact ⟨hcCodes, hgok2.2.2, haok2.2.2, hlok2.2.2,
    hcExt, hgext, haext, hlext,
    fun c hc hcd => congrArg CountryRow.id (hcReuse c hc hcd),
    hgmem, hamem, hlmem, hgall, haall, hlall, ⟨_, hcMem, hcCode⟩⟩

theorem reference_resolution_get_or_create_witness :
    dbOk sampleDB ∧
    create_movie 500 false sampleDB payloadB =
      .ok (dbAfterCreate sampleDB payloadB, newMovieRow sampleDB payloadB) ∧
    (((dbAfterCreate sampleDB payloadB).countries.map CountryRow.code).Nodup ∧
     ((dbAfterCreate sampleDB payloadB).genres.map RefRow.name).Nodup ∧
     ((dbAfterCreate sampleDB payloadB).actors.map RefRow.name).Nodup ∧
     ((dbAfterCreate sampleDB payloadB).languages.map RefRow.name).Nodup ∧
     (∃ extC, (dbAfterCreate sampleDB payloadB).countries = sampleDB.countries ++ extC ∧
       ∀ c ∈ extC, c.code = payloadB.country ∧ c.name = none ∧
         ∀ c0 ∈ sampleDB.countries, c0.code ≠ payloadB.country) ∧
     (∃ ext, (dbAfterCreate sampleDB payloadB).genres = sampleDB.genres ++ ext ∧
       ∀ r ∈ ext, r.name ∈ payloadB.genres ∧ ∀ r0 ∈ sampleDB.genres, r0.name ≠ r.name) ∧
     (∃ ext, (dbAfterCreate sampleDB payloadB).actors = sampleDB.actors ++ ext ∧
       ∀ r ∈ ext, r.name ∈ payloadB.actors ∧ ∀ r0 ∈ sampleDB.actors, r0.name ≠ r.name) ∧
     (∃ ext, (dbAfterCreate sampleDB payloadB).languages = sampleDB.languages ++ ext ∧
       ∀ r ∈ ext, r.name ∈ payloadB.languages ∧ ∀ r0 ∈ sampleDB.languages, r0.name ≠ r.name) ∧
     (∀ c ∈ sampleDB.countries, c.code = payloadB.country →
       (newMovieRow sampleDB payloadB).countryId = c.id) ∧
     (∀ r ∈ sampleDB.genres, r.name ∈ payloadB.genres →
       r.id ∈ (newMovieRow sampleDB payloadB).genreIds) ∧
     (∀ r ∈ sampleDB.actors, r.name ∈ payloadB.actors →
       r.id ∈ (newMovieRow sampleDB payloadB).actorIds) ∧
     (∀ r ∈ sampleDB.languages, r.name ∈ payloadB.languages →
       r.id ∈ (newMovieRow sampleDB payloadB).languageIds) ∧
     (∀ n ∈ payloadB.genres, ∃ r ∈ (dbAfterCreate sampleDB payloadB).genres, r.name = n) ∧
     (∀ n ∈ payloadB.actors, ∃ r ∈ (dbAfterCreate sampleDB payloadB).actors, r.name = n) ∧
     (∀ n ∈ payloadB.languages, ∃ r ∈ (dbAfterCreate sampleDB payloadB).languages, r.name = n) ∧
     (∃ c ∈ (dbAfterCreate sampleDB payloadB).countries, c.code = payloadB.country)) :=
  ⟨by decide, by decide,
   reference_resolution_get_or_create 500 sampleDB payloadB
     (dbAfterCreate sampleDB payloadB) (newMovieRow sampleDB payloadB)
     (by decide) (by decide)⟩

/-- C7: round-trip - for every creation accepted by the workflow,
immediately fetching the created movie by its id succeeds and returns the
very record the creation answered with, whose scalar fields all equal the
submitted payload and whose resolved relation keys (country code,
genre/actor/language names, in order) equal the submitted ones exactly. -/
theorem create_roundtrip (today : Int) (db : DB) (p : MovieCreatePayload)
    (db' : DB) (m : MovieRow) (hwf : dbOk db)
    (h : create_movie today false db p = .ok (db', m)) :
    get_movie_by_id db' m.id = .ok m ∧
    m.name = p.name ∧ m.date = p.date ∧ m.score = p.score ∧
    m.overview = p.overview ∧ m.status = p.status ∧ m.budget = p.budget ∧
    m.revenue = p.revenue ∧
    countryCodeOfId db'.countries m.countryId = some p.country ∧
    m.genreIds.map (fun i => refNameOfId db'.genres i) = p.genres.map some ∧
    m.actorIds.map (fun i => refNameOfId db'.actors i) = p.actors.map some ∧
    m.languageIds.map (fun i => refNameOfId db'.languages i) = p.languages.map some := by
  obtain ⟨hmb, hmid, hcb, hcid, hccode, hgok, haok, hlok⟩ := hwf
  obtain ⟨hdb, hm⟩ := create_movie_ok_inv hmb h
  subst hdb
  subst hm
  refine ⟨?_, rfl, rfl, rfl, rfl, rfl, rfl, rfl, ?_, ?_, ?_, ?_⟩
  · unfold get_movie_by_id _get_movie_or_404
    have hfind : findMovie (dbAfterCreate db p) (newMovieRow db p).id =
        some (newMovieRow db p) := by
      unfold findMovie dbAfterCreate
      exact findMovie_append_new db.movies (newMovieRow db p) _ rfl hmb
    rw [hfind]
  · exact (resolveCountry_spec db.countries db.nextCountryId p.country
      hcb hcid hccode).2.2.2.2.2.2.1
  · exact (resolveAll_spec p.genres db.genres db.nextGenreId hgok).2.2.1
  · exact (resolveAll_spec p.actors db.actors db.nextActorId haok).2.2.1
  · exact (resolveAll_spec p.languages db.languages db.nextLanguageId hlok).2.2.1

theorem create_roundtrip_witness :
    dbOk sampleDB ∧
    create_movie 500 false sampleDB payloadB =
      .ok (dbAfterCreate sampleDB payloadB, newMovieRow sampleDB payloadB) ∧
    (get_movie_by_id (dbAfterCreate sampleDB payloadB)
        (newMovieRow sampleDB payloadB).id = .ok (newMovieRow sampleDB payloadB) ∧
     (newMovieRow sampleDB payloadB).name = payloadB.name ∧
     (newMovieRow sampleDB payloadB).date = payloadB.date ∧
     (newMovieRow sampleDB payloadB).score = payloadB.score ∧
     (newMovieRow sampleDB payloadB).overview = payloadB.overview ∧
     (newMovieRow sampleDB payloadB).status = payloadB.status ∧
     (newMovieRow sampleDB payloadB).budget = payloadB.budget ∧
     (newMovieRow sampleDB payloadB).revenue = payloadB.revenue ∧
     countryCodeOfId (dbAfterCreate sampleDB payloadB).countries
       (newMovieRow sampleDB payloadB).countryId = some payloadB.country ∧
     (newMovieRow sampleDB payloadB).genreIds.map
       (fun i => refNameOfId (dbAfterCreate sampleDB payloadB).genres i) =
         payloadB.genres.map some ∧
     (newMovieRow sampleDB payloadB).actorIds.map
       (fun i => refNameOfId (dbAfterCreate sampleDB payloadB).actors i) =
         payloadB.actors.map some ∧
     (newMovieRow sampleDB payloadB).languageIds.map
       (fun i => refNameOfId (dbAfterCreate sampleDB payloadB).languages i) =
         payloadB.languages.map some) :=
  ⟨by decide, by decide,
   create_roundtrip 500 sampleDB payloadB (dbAfterCreate sampleDB payloadB)
     (newMovieRow sampleDB payloadB) (by decide) (by decide)⟩

/-- C8: the order of the input genre, actor and language name lists is
preserved in the created movie's associations: the association lists have
the same lengths as the inputs and, position by position, the k-th
association id resolves to the k-th input name. -/
theorem associations_preserve_input_order
    (today : Int) (db : DB) (p : MovieCreatePayload)
    (db' : DB) (m : MovieRow) (hwf : dbOk db)
    (h : create_movie today false db p = .ok (db', m)) :
    m.genreIds.length = p.genres.length ∧
    m.actorIds.length = p.actors.length ∧
    m.languageIds.length = p.languages.length ∧
    (∀ k : Nat, (m.genreIds.get? k).map (fun i => refNameOfId db'.genres i) =
      (p.genres.get? k).map some) ∧
    (∀ k : Nat, (m.actorIds.get? k).map (fun i => refNameOfId db'.actors i) =
      (p.actors.get? k).map some) ∧
    (∀ k : Nat, (m.languageIds.get? k).map (fun i => refNameOfId db'.languages i) =
      (p.languages.get? k).map some) := by
  obtain ⟨hmb, hmid, hcb, hcid, hccode, hgok, haok, hlok⟩ := hwf
  obtain ⟨hdb, hm⟩ := create_movie_ok_inv hmb h
  subst hdb
  subst hm
  have hg := (resolveAll_spec p.genres db.genres db.nextGenreId hgok).2.2.1
  have ha := (resolveAll_spec p.actors db.actors db.nextActorId haok).2.2.1
  have hl := (resolveAll_spec p.languages db.languages db.nextLanguageId hlok).2.2.1
  refine ⟨?_, ?_, ?_, ?_, ?_, ?_⟩
  · have := congrArg List.length hg
    simpa using this
  · have := congrArg List.length ha
    simpa using this
  · have := congrArg List.length hl
    simpa using this
  · intro k
    have := congrArg (fun l => l.get? k) hg
    simpa [List.get?_map] using this
  · intro k
    have := congrArg (fun l => l.get? k) ha
    simpa [List.get?_map] using this
  · intro k
    have := congrArg (fun l => l.get? k) hl
    simpa [List.get?_map] using this

theorem associations_preserve_input_order_witness :
    dbOk sampleDB ∧
    create_movie 500 false sampleDB payloadB =
      .ok (dbAfterCreate sampleDB payloadB, newMovieRow sampleDB payloadB) ∧
    ((newMovieRow sampleDB payloadB).genreIds.length = payloadB.genres.length ∧
     (newMovieRow sampleDB payloadB).actorIds.length = payloadB.actors.length ∧
     (newMovieRow sampleDB payloadB).languageIds.length = payloadB.languages.length ∧
     (∀ k : Nat, ((newMovieRow sampleDB payloadB).genreIds.get? k).map
       (fun i => refNameOfId (dbAfterCreate sampleDB payloadB).genres i) =
         (payloadB.genres.get? k).map some) ∧
     (∀ k : Nat, ((newMovieRow sampleDB payloadB).actorIds.get? k).map
       (fun i => refNameOfId (dbAfterCreate sampleDB payloadB).actors i) =
         (payloadB.actors.get? k).map some) ∧
     (∀ k : Nat, ((newMovieRow sampleDB payloadB).languageIds.get? k).map
       (fun i => refNameOfId (dbAfterCreate sampleDB payloadB).languages i) =
         (payloadB.languages.get? k).map some)) :=
  ⟨by decide, by decide,
   associations_preserve_input_order 500 sampleDB payloadB
     (dbAfterCreate sampleDB payloadB) (newMovieRow sampleDB payloadB)
     (by decide) (by decide)⟩

/-- C4: for page ≥ 1 and 1 ≤ per_page ≤ 20, the listing fails - always with
NotFound ("No movies found.") - exactly when there are no movies, or the
page exceeds the rounded-up page count, or the fetched slice is empty;
otherwise it returns exactly the slice of the id-descending order starting
at offset (page-1)*per_page with at most per_page items, and reports
total_pages as the ceiling of total_items / per_page (characterized as the
least page count covering all items). -/
theorem get_movies_pagination (db : DB) (page per_page : Nat)
    (hpage : 1 ≤ page) (hpp1 : 1 ≤ per_page) (hpp2 : per_page ≤ 20) :
    ((∃ e, get_movies db page per_page = .error e) ↔
      (db.movies.length = 0 ∨
       page > (db.movies.length + per_page - 1) / per_page ∨
       ((moviesByIdDesc db).drop ((page - 1) * per_page)).take per_page = [])) ∧
    (∀ e, get_movies db page per_page = .error e →
      e = .notFound "No movies found.") ∧
    (∀ resp, get_movies db page per_page = .ok resp →
      resp.movies = ((moviesByIdDesc db).drop ((page - 1) * per_page)).take per_page ∧
      resp.movies.length ≤ per_page ∧
      List.Pairwise byIdDesc resp.movies ∧
      resp.total_items = db.movies.length ∧
      resp.total_pages = (db.movies.length + per_page - 1) / per_page ∧
      db.movies.length ≤ per_page * resp.total_pages ∧
      per_page * (resp.total_pages - 1) < db.movies.length) := by
  rcases get_movies_cases db page per_page with
    ⟨h0, he⟩ | ⟨h0, hp, he⟩ | ⟨h0, hp, hs, he⟩ | ⟨h0, hp, hs, he⟩
  · refine ⟨⟨fun _ => Or.inl h0, fun _ => ⟨_, he⟩⟩, ?_, ?_⟩
    · intro e hee
      rw [he] at hee
      exact (Except.error.inj hee).symm
    · intro resp hr
      rw [he] at hr
      exact Except.noConfusion hr
  · refine ⟨⟨fun _ => Or.inr (Or.inl hp), fun _ => ⟨_, he⟩⟩, ?_, ?_⟩
    · intro e hee
      rw [he] at hee
      exact (Except.error.inj hee).symm
    · intro resp hr
      rw [he] at hr
      exact Except.noConfusion hr
  · refine ⟨⟨fun _ => Or.inr (Or.inr hs), fun _ => ⟨_, he⟩⟩, ?_, ?_⟩
    · intro e hee
      rw [he] at hee
      exact (Except.error.inj hee).symm
    · intro resp hr
      rw [he] at hr
      exact Except.noConfusion hr
  · refine ⟨⟨?_, ?_⟩, ?_, ?_⟩
    · rintro ⟨e, hee⟩
      rw [he] at hee
      exact Except.noConfusion hee
    · rintro (hc | hc | hc)
      · exact absurd hc h0
      · exact absurd hc hp
      · exact absurd hc hs
    · intro e hee
      rw [he] at hee
      exact Except.noConfusion hee
    · intro resp hr
      rw [he] at hr
      have hresp : resp = _ := (Except.ok.inj hr).symm
      subst hresp
      refine ⟨rfl, List.length_take_le _ _, ?_, rfl, rfl, ?_, ?_⟩
      · have hsorted : List.Pairwise byIdDesc (moviesByIdDesc db) :=
          List.sorted_insertionSort byIdDesc db.movies
        exact List.Pairwise.sublist
          ((List.take_sublist _ _).trans (List.drop_sublist _ _)) hsorted
      · exact (ceil_div_spec db.movies.length per_page hpp1 h0).1
      · exact (ceil_div_spec db.movies.length per_page hpp1 h0).2

theorem get_movies_pagination_witness :
    ((1 : Nat) ≤ 1 ∧ (1 : Nat) ≤ 10 ∧ (10 : Nat) ≤ 20) ∧
    (((∃ e, get_movies sampleDB 1 10 = .error e) ↔
       (sampleDB.movies.length = 0 ∨
        1 > (sampleDB.movies.length + 10 - 1) / 10 ∨
        ((moviesByIdDesc sampleDB).drop ((1 - 1) * 10)).take 10 = [])) ∧
     (∀ e, get_movies sampleDB 1 10 = .error e →
       e = .notFound "No movies found.") ∧
     (∀ resp, get_movies sampleDB 1 10 = .ok resp →
       resp.movies = ((moviesByIdDesc sampleDB).drop ((1 - 1) * 10)).take 10 ∧
       resp.movies.length ≤ 10 ∧
       List.Pairwise byIdDesc resp.movies ∧
       resp.total_items = sampleDB.movies.length ∧
       resp.total_pages = (sampleDB.movies.length + 10 - 1) / 10 ∧
       sampleDB.movies.length ≤ 10 * resp.total_pages ∧
       10 * (resp.total_pages - 1) < sampleDB.movies.length)) :=
  ⟨⟨by decide, by decide, by decide⟩,
   get_movies_pagination sampleDB 1 10 (by decide) (by decide) (by decide)⟩
